import Mathlib

/-!
Verification of the pdf_converter job service (`src/app.py`).

The global `conversion_status` dict is modelled as an association list in
insertion order; the filesystem is modelled as the list of paths that
currently exist.  All definitions are translated from `app.py`; line numbers
in the doc comments refer to that file.
-/

namespace PdfConverter

/-- Job status strings stored in the `status` field of `conversion_status`
records: "queued", "processing", "uploading", "completed", "failed",
"upload_failed". -/
inductive JobStatus where
  | queued
  | processing
  | uploading
  | completed
  | failed
  | uploadFailed
deriving DecidableEq, Repr

/-- One record of the global `conversion_status` dict (app.py lines 599-609
and 672-682).  The `start_time` / `end_time` timestamps are elided: no claim
mentions them.  `error` is absent (`none`) until a failure records it. -/
structure Job where
  id : String
  filename : String
  nomorUrut : Option String
  targetUrl : Option String
  endpointType : String
  status : JobStatus
  createdTime : Nat
  inputPath : String
  outputPath : String
  engineUsed : Option String
  currentEngine : Option String
  error : Option String
deriving DecidableEq, Repr

/-- The global `conversion_status` dict (app.py line 107), as an association
list in insertion order.  Every store the service builds has pairwise
distinct keys (it is a Python dict). -/
abbrev Store := List (String × Job)

/-- Dict lookup: `conversion_status[cid]`, `conversion_status.get(cid)`,
and the membership test `cid in conversion_status`. -/
def Store.find : Store → String → Option Job
  | [], _ => none
  | p :: rest, cid => if p.1 = cid then some p.2 else Store.find rest cid

/-- Dict assignment `conversion_status[cid] = j` (app.py line 599 / 672):
replaces the value of an existing key in place, otherwise appends. -/
def Store.insert : Store → String → Job → Store
  | [], cid, j => [(cid, j)]
  | p :: rest, cid, j => if p.1 = cid then (cid, j) :: rest else p :: Store.insert rest cid j

/-- `del conversion_status[cid]` (app.py lines 369 and 801). -/
def Store.erase : Store → String → Store
  | [], _ => []
  | p :: rest, cid => if p.1 = cid then rest else p :: Store.erase rest cid

/-- In-place mutation of the record stored under `cid`, e.g.
`conversion_status[cid]["status"] = ...`; a no-op when the id is absent. -/
def Store.update : Store → String → (Job → Job) → Store
  | [], _, _ => []
  | p :: rest, cid, f => if p.1 = cid then (p.1, f p.2) :: rest else p :: Store.update rest cid f

/-- The keys of the store. -/
def Store.keys (s : Store) : List String := s.map (fun p => p.1)

/-- Pairwise-distinct keys: the invariant every Python dict satisfies. -/
def Store.keysNodup (s : Store) : Prop := s.keys.Nodup

/-- The filesystem, reduced to the list of paths that currently exist
(membership is the `os.path.exists` test). -/
abbrev FS := List String

/-- `if path and os.path.exists(path): safe_remove_file(path)` (app.py
lines 364-366, 796-798); in the model removal always succeeds (there is no
file locking).  Paths in this service are always non-empty strings. -/
def FS.removeFile (fs : FS) (p : String) : FS :=
  if p ∈ fs then fs.filter (fun q => q ≠ p) else fs

/-- Writing a new file (saving the uploaded input, app.py lines 594-596). -/
def FS.writeFile (fs : FS) (p : String) : FS := p :: fs

/-- `MAX_WORKERS` default (app.py line 35). -/
def MAX_WORKERS : Nat := 4

/-- `MAX_FILE_SIZE` default, 50 MB (app.py line 36). -/
def MAX_FILE_SIZE : Nat := 50 * 1024 * 1024

/-- `MAX_FILE_AGE` default, one hour of seconds (app.py line 48). -/
def MAX_FILE_AGE : Nat := 3600

/-- `TEMP_DIR` (app.py line 43); the concrete value is irrelevant to every
claim, only the per-id naming scheme below matters. -/
def TEMP_DIR : String := "tmp"

/-- `os.path.join(TEMP_DIR, f"{cid}.docx")` (app.py line 589 / 660). -/
def tempDocx (cid : String) : String := TEMP_DIR ++ "/" ++ cid ++ ".docx"

/-- `os.path.join(TEMP_DIR, f"{cid}.pdf")` (app.py line 590 / 661). -/
def tempPdf (cid : String) : String := TEMP_DIR ++ "/" ++ cid ++ ".pdf"

/-- The fresh record written into `conversion_status` on submission
(app.py lines 599-609 and 672-682). -/
def initialJob (cid filename : String) (nomorUrut targetUrl : Option String)
    (endpointType : String) (now : Nat) : Job :=
  { id := cid
    filename := filename
    nomorUrut := nomorUrut
    targetUrl := targetUrl
    endpointType := endpointType
    status := JobStatus.queued
    createdTime := now
    inputPath := tempDocx cid
    outputPath := tempPdf cid
    engineUsed := none
    currentEngine := none
    error := none }

/-- `if file.size and file.size > MAX_FILE_SIZE` (app.py line 582 / 647):
`file.size` may be `None` (unknown), and `0` is falsy. -/
def sizeTooLarge : Option Nat → Bool
  | some s => decide (0 < s) && decide (MAX_FILE_SIZE < s)
  | none => false

/-- `filename.lower()` — Python lowercases the filename before the
extension test (app.py line 579); mapped over the character list because
`String.toLower` itself is not kernel-reducible. -/
def pyLower (s : String) : String := String.mk (s.data.map Char.toLower)

/-- Python's `str.endswith(suffix)`, as character-list suffix testing. -/
def pyEndsWith (s suffix : String) : Bool := List.isSuffixOf suffix.data s.data

/-- The extension check `file.filename.lower().endswith('.docx')`
(app.py line 579 / 641). -/
def validDocxFilename (filename : String) : Bool :=
  pyEndsWith (pyLower filename) (".docx")

/-- POST `/convert` (app.py lines 569-628), up to and including the creation
of the `conversion_status` record; the background `convert_file` task is
modelled separately (`convertFile`).  Returns the store, the filesystem and
the HTTP outcome (`.error 400` for a validation rejection, `.ok cid` for an
accepted submission).  `nomor_urut` and `target_url` are required form
fields of this endpoint. -/
def convertDocx (store : Store) (fs : FS) (filename : String) (size : Option Nat)
    (nomorUrut targetUrl : String) (now : Nat) : Store × FS × Except Nat String :=
  if !(validDocxFilename filename) then (store, fs, Except.error 400)
  else if sizeTooLarge size then (store, fs, Except.error 400)
  else
    let cid := nomorUrut
    let j := initialJob cid filename (some nomorUrut) (some targetUrl) ("convert") now
    (store.insert cid j, fs.writeFile (tempDocx cid), Except.ok cid)

/-- POST `/convertDua` (app.py lines 631-710).  `nomor_urut` and
`target_url` are optional here; a falsy `nomor_urut` (absent or the empty
string) makes the service use a generated uuid, passed in as `freshId`. -/
def convertDua (store : Store) (fs : FS) (filename : String) (size : Option Nat)
    (nomorUrut targetUrl : Option String) (freshId : String) (now : Nat) :
    Store × FS × Except Nat String :=
  if !(validDocxFilename filename) then (store, fs, Except.error 400)
  else if sizeTooLarge size then (store, fs, Except.error 400)
  else
    let cid := match nomorUrut with
      | some s => if s = "" then freshId else s
      | none => freshId
    let j := initialJob cid filename nomorUrut targetUrl ("convertDua") now
    (store.insert cid j, fs.writeFile (tempDocx cid), Except.ok cid)

/-- GET `/status/{cid}` (app.py lines 713-730); path-stripping and date
formatting of the returned record are elided. -/
def getStatus (store : Store) (cid : String) : Except Nat Job :=
  match store.find cid with
  | none => Except.error 404
  | some j => Except.ok j

/-- GET `/download/{cid}` (app.py lines 733-757): 404 for an unknown id,
400 unless the job is completed, 404 if the output file is gone, otherwise
the served file path. -/
def downloadPdf (store : Store) (fs : FS) (cid : String) : Except Nat String :=
  match store.find cid with
  | none => Except.error 404
  | some j =>
    if j.status ≠ JobStatus.completed then Except.error 400
    else if j.outputPath ∈ fs then Except.ok j.outputPath
    else Except.error 404

/-- GET `/pdf/{cid}` (app.py lines 760-784): with no record, fall back to
the file `TEMP_DIR/{cid}.pdf`; with a record, serve its output path if the
file exists — with no check of the job's status. -/
def getPdfDirect (store : Store) (fs : FS) (cid : String) : Except Nat String :=
  match store.find cid with
  | none =>
    if tempPdf cid ∈ fs then Except.ok (tempPdf cid) else Except.error 404
  | some j =>
    if j.outputPath ∈ fs then Except.ok j.outputPath else Except.error 404

/-- DELETE `/cleanup/{cid}` (app.py lines 787-803): 404 for an unknown id,
otherwise remove both artifact files and delete the record. -/
def cleanupConversion (store : Store) (fs : FS) (cid : String) :
    Except Nat (Store × FS) :=
  match store.find cid with
  | none => Except.error 404
  | some j =>
    let fs1 := fs.removeFile j.inputPath
    let fs2 := fs1.removeFile j.outputPath
    Except.ok (store.erase cid, fs2)

/-- Number of records whose status is exactly `st`. -/
def countStatus (st : JobStatus) (s : Store) : Nat :=
  (s.filter (fun p => decide (p.2.status = st))).length

/-- The counts reported by GET `/queue/status` (app.py lines 809-813):
`completed`, `processing` and `failed` are counted exactly; `queued` is
computed as `total - completed - processing - failed`. -/
structure QueueCounts where
  total : Nat
  queued : Nat
  processing : Nat
  completed : Nat
  failed : Nat
deriving DecidableEq, Repr

/-- GET `/queue/status` (app.py lines 806-848), restricted to the per-state
counts; the throughput estimates and messages depend on no store state. -/
def queueStatus (s : Store) : QueueCounts :=
  let total := s.length
  let completed := countStatus JobStatus.completed s
  let processing := countStatus JobStatus.processing s
  let failed := countStatus JobStatus.failed s
  { total := total
    queued := total - completed - processing - failed
    processing := processing
    completed := completed
    failed := failed }

/-- One sweep of the reaper loop `cleanup_old_conversions` (app.py lines
349-377): collect every record strictly older than `MAX_FILE_AGE`, then for
each one remove its two artifact files and delete the record.  The source
interleaves the file removals and the `del` in one loop over the collected
ids; the two folds below perform the same removals (the filesystem and the
store are disjoint state). -/
def cleanupSweep (now : Nat) (store : Store) (fs : FS) : Store × FS :=
  let expiredList := store.filter (fun p => decide (MAX_FILE_AGE < now - p.2.createdTime))
  let fs' := expiredList.foldl
    (fun acc p => (acc.removeFile p.2.inputPath).removeFile p.2.outputPath) fs
  let store' := expiredList.foldl (fun acc p => acc.erase p.1) store
  (store', fs')

/-- The JSON body of an upload response, as far as
`upload_pdf_to_target` inspects it (app.py lines 469-481): a parseable body
with the `upload_data` confirmation marker, a parseable body without it, or
an unparseable body (treated leniently as success on a 2xx status). -/
inductive RespBody where
  | markerPresent
  | markerAbsent
  | unparseable
deriving DecidableEq, Repr

/-- Outcome of one POST inside the upload retry loop (app.py lines 432-460):
either the client raises a transport error / timeout
(`httpx.HTTPError`, `httpx.TimeoutException`), or a response comes back. -/
inductive UploadStep where
  | transportError
  | response (code : Nat) (body : RespBody)
deriving DecidableEq, Repr

/-- The post-loop success check (app.py lines 466-484) applied to a response
with status `code < 500` that broke the loop. -/
def respOk (code : Nat) (body : RespBody) : Bool :=
  decide (200 ≤ code) && decide (code < 300) &&
    (match body with
     | RespBody.markerPresent => true
     | RespBody.markerAbsent => false
     | RespBody.unparseable => true)

/-- Observable outcome of one run of the upload retry loop: the final
result, how many POST attempts were made, and the list of back-off sleeps
performed (in order). -/
structure UploadSim where
  ok : Bool
  attempts : Nat
  sleeps : List Nat
deriving DecidableEq, Repr

/-- The retry loop `for attempt in range(max_retries + 1)` of
`upload_pdf_to_target` (app.py lines 428-460) with `max_retries = 3` and
`retry_delay` starting at 1.  `steps i` is the outcome of the POST of
attempt `i`.  `fuel` counts the loop iterations still permitted (4 at
entry), so `attempt < max_retries` is `fuel ≠ 0` after the current
iteration, i.e. the `fuel = 0` tests below.  On a response with status
`< 500` the loop breaks and the post-loop check `respOk` decides the
result; on a status `≥ 500` the loop simply continues — with no sleep; on a
transport error the loop sleeps `retry_delay`, doubles it and retries, or
gives up after the last attempt. -/
def uploadLoopGo (steps : Nat → UploadStep) :
    Nat → Nat → Nat → List Nat → UploadSim
  | 0, attempt, _, sleeps =>
    { ok := false, attempts := attempt, sleeps := sleeps.reverse }
  | fuel + 1, attempt, delay, sleeps =>
    match steps attempt with
    | UploadStep.response c body =>
      if c < 500 then
        { ok := respOk c body, attempts := attempt + 1, sleeps := sleeps.reverse }
      else if fuel = 0 then
        { ok := false, attempts := attempt + 1, sleeps := sleeps.reverse }
      else uploadLoopGo steps fuel (attempt + 1) delay sleeps
    | UploadStep.transportError =>
      if fuel = 0 then
        { ok := false, attempts := attempt + 1, sleeps := sleeps.reverse }
      else uploadLoopGo steps fuel (attempt + 1) (delay * 2) (delay :: sleeps)

/-- The whole retry loop of `upload_pdf_to_target`, entered with 4 permitted
attempts, attempt counter 0 and `retry_delay = 1`. -/
def uploadPdfSim (steps : Nat → UploadStep) : UploadSim :=
  uploadLoopGo steps 4 0 1 []

/-- `upload_pdf_to_target(conversion_id, pdf_path)` (app.py lines 402-488):
an unknown conversion id (lines 405-407) or an absent `target_url`
(lines 413-415) return `False` before any POST; otherwise the retry loop
runs. -/
def uploadPdfToTarget (store : Store) (cid : String) (steps : Nat → UploadStep) :
    UploadSim :=
  match store.find cid with
  | none => { ok := false, attempts := 0, sleeps := [] }
  | some j =>
    match j.targetUrl with
    | none => { ok := false, attempts := 0, sleeps := [] }
    | some _ => uploadPdfSim steps

/-- Outcome of one engine's try inside the `convert_file` fallback loop
(app.py lines 503-545): the engine's name, whether `engine.convert`
returned truthily (an exception in the try block counts as `false` — the
loop advances either way), and whether the output artifact then exists and
its size. -/
structure Attempt where
  engineName : String
  reported : Bool
  outputExists : Bool
  outputSize : Nat
deriving DecidableEq, Repr

/-- The success test of app.py line 510:
`success and os.path.exists(output_path) and os.path.getsize(output_path) > 0`. -/
def goodAttempt (a : Attempt) : Bool :=
  a.reported && a.outputExists && decide (0 < a.outputSize)

/-- The engine fallback loop of `convert_file` (app.py lines 503-551),
carrying the store through the per-iteration status writes.  Returns the
final store, the boolean `convert_file` returns, and the list of `status`
values assigned after the loop was entered.  On the first good attempt the
job is marked `uploading` with `engine_used` (lines 511-512), the upload
runs, and the job ends `completed` (line 519) or `upload_failed`
(lines 534-536); if every attempt fails the job ends `failed` with the
all-engines error (lines 548-550). -/
def engineLoop (cid : String) (upSteps : Nat → UploadStep) :
    Store → List Attempt → Store × Bool × List JobStatus
  | store, [] =>
    (store.update cid (fun j =>
      { j with status := JobStatus.failed,
               error := some ("All conversion engines failed") }),
     false, [JobStatus.failed])
  | store, a :: rest =>
    let store1 := store.update cid (fun j => { j with currentEngine := some a.engineName })
    if goodAttempt a then
      let store2 := store1.update cid (fun j =>
        { j with status := JobStatus.uploading, engineUsed := some a.engineName })
      let up := uploadPdfToTarget store2 cid upSteps
      if up.ok then
        (store2.update cid (fun j => { j with status := JobStatus.completed }),
         true, [JobStatus.uploading, JobStatus.completed])
      else
        (store2.update cid (fun j =>
          { j with status := JobStatus.uploadFailed,
                   error := some ("Failed to upload PDF to target") }),
         false, [JobStatus.uploading, JobStatus.uploadFailed])
    else engineLoop cid upSteps store1 rest

/-- `convert_file(input_path, output_path, conversion_id)` (app.py lines
491-551).  The job is marked `processing` first (line 494); with no
available engines it fails immediately (lines 497-500); otherwise the
fallback loop runs, one `Attempt` per available engine in priority order.
The deletion of the artifacts after a successful upload (lines 524-530) is
elided: no claim refers to it. -/
def convertFile (store : Store) (cid : String) (attempts : List Attempt)
    (upSteps : Nat → UploadStep) : Store × Bool × List JobStatus :=
  let store0 := store.update cid (fun j => { j with status := JobStatus.processing })
  if attempts.isEmpty then
    (store0.update cid (fun j =>
      { j with status := JobStatus.failed,
               error := some ("No conversion engines available") }),
     false, [JobStatus.processing, JobStatus.failed])
  else
    let r := engineLoop cid upSteps store0 attempts
    (r.1, r.2.1, JobStatus.processing :: r.2.2)

/-- Store-level transitions of the running service.  Each submission
schedules `convert_file` as an independent background task on the event
loop; tasks interleave at every `await`, and nothing gates the line
`conversion_status[cid]["status"] = "processing"` (app.py line 494) on a
worker slot: the `ThreadPoolExecutor(max_workers=MAX_WORKERS)` of line 104
is only entered inside `MSWordEngine.convert`, while the LibreOffice engine
runs as an un-pooled asyncio subprocess.  The constructors mirror, in
order: a validated submission (lines 579-612), the entry of a scheduled
`convert_file` task (lines 494-495), its three terminal outcomes, the two
upload outcomes, and record deletion by the reaper or `/cleanup`. -/
inductive Step : Store → Store → Prop where
  | submit (s : Store) (cid filename : String) (nu tu : Option String)
      (et : String) (size : Option Nat) (now : Nat)
      (hext : validDocxFilename filename = true)
      (hsize : sizeTooLarge size = false) :
      Step s (s.insert cid (initialJob cid filename nu tu et now))
  | beginProcessing (s : Store) (cid : String) (j : Job)
      (hfind : s.find cid = some j) (hq : j.status = JobStatus.queued) :
      Step s (s.update cid (fun j => { j with status := JobStatus.processing }))
  | noEngines (s : Store) (cid : String) (j : Job)
      (hfind : s.find cid = some j) (hp : j.status = JobStatus.processing) :
      Step s (s.update cid (fun j =>
        { j with status := JobStatus.failed,
                 error := some ("No conversion engines available") }))
  | allEnginesFailed (s : Store) (cid : String) (j : Job)
      (hfind : s.find cid = some j) (hp : j.status = JobStatus.processing) :
      Step s (s.update cid (fun j =>
        { j with status := JobStatus.failed,
                 error := some ("All conversion engines failed") }))
  | engineSucceeded (s : Store) (cid : String) (j : Job) (engine : String)
      (hfind : s.find cid = some j) (hp : j.status = JobStatus.processing) :
      Step s (s.update cid (fun j =>
        { j with status := JobStatus.uploading, engineUsed := some engine }))
  | uploadSucceeded (s : Store) (cid : String) (j : Job)
      (hfind : s.find cid = some j) (hu : j.status = JobStatus.uploading) :
      Step s (s.update cid (fun j => { j with status := JobStatus.completed }))
  | uploadFailedStep (s : Store) (cid : String) (j : Job)
      (hfind : s.find cid = some j) (hu : j.status = JobStatus.uploading) :
      Step s (s.update cid (fun j =>
        { j with status := JobStatus.uploadFailed,
                 error := some ("Failed to upload PDF to target") }))
  | deleteRecord (s : Store) (cid : String) (j : Job)
      (hfind : s.find cid = some j) :
      Step s (s.erase cid)

/-- Stores reachable from the empty initial store. -/
inductive Reachable : Store → Prop where
  | init : Reachable []
  | step {s s' : Store} : Reachable s → Step s s' → Reachable s'

/-- Number of records currently in status `processing`. -/
def countProcessing (s : Store) : Nat :=
  (s.filter (fun p => decide (p.2.status = JobStatus.processing))).length

/-- A family of pairwise-distinct job ids. -/
def idOf (n : Nat) : String := String.mk (List.replicate n 'a')

/-- The record a submission with id `idOf n` creates. -/
def queuedJobAt (n : Nat) : Job :=
  initialJob (idOf n) ("doc.docx") (some (idOf n)) (some ("http://cb")) ("convert") 0

/-- The same record after its `convert_file` task has marked it processing. -/
def procJobAt (n : Nat) : Job := { queuedJobAt n with status := JobStatus.processing }

/-- A store holding `n` jobs that are all processing at once. -/
def procStore (n : Nat) : Store :=
  (List.range n).map (fun i => (idOf i, procJobAt i))

/-- Fixture: a job submitted through POST `/convertDua` with no
`target_url` (that form field defaults to `None`). -/
def jobNoCb : Job := initialJob ("J1") ("a.docx") (some ("J1")) none ("convertDua") 0

/-- Fixture: an engine attempt that succeeds and leaves a non-empty output. -/
def goodA : Attempt :=
  { engineName := "LibreOffice", reported := true, outputExists := true, outputSize := 100 }

/-- Fixture: an engine attempt that fails. -/
def badA : Attempt :=
  { engineName := "LibreOffice", reported := false, outputExists := false, outputSize := 0 }

/-- Fixture: a second engine's attempt that succeeds. -/
def goodB : Attempt :=
  { engineName := "MS Word", reported := true, outputExists := true, outputSize := 77 }

/-- Fixture: upload outcomes — a 500 response to the first POST, then a 200
response with the confirmation marker. -/
def steps5xx : Nat → UploadStep := fun i =>
  if i = 0 then UploadStep.response 500 RespBody.markerAbsent
  else UploadStep.response 200 RespBody.markerPresent

/-- Fixture: a record whose job ended in `upload_failed`. -/
def jobUF : Job :=
  { initialJob ("J1") ("a.docx") (some ("J1")) (some ("http://cb")) ("convert") 0 with
      status := JobStatus.uploadFailed
      engineUsed := some ("LibreOffice")
      error := some ("Failed to upload PDF to target") }

/-- Fixture: a job that reached `completed` and whose callback came from
POST `/convert`. -/
def jobDone : Job :=
  { initialJob ("J2") ("b.docx") (some ("J2")) (some ("http://cb")) ("convert") 0 with
      status := JobStatus.completed
      engineUsed := some ("LibreOffice") }

/-- Fixture: an expired record (created at time 0). -/
def oldJob : Job :=
  initialJob ("OLD") ("a.docx") (some ("OLD")) (some ("http://cb")) ("convert") 0

/-- Fixture: a fresh record (created at time 4000). -/
def newJob : Job :=
  initialJob ("NEW") ("b.docx") (some ("NEW")) (some ("http://cb")) ("convert") 4000

/-- Fixture: a two-record store for the reaper boundary test at time 5000. -/
def sweepStore : Store := [("OLD", oldJob), ("NEW", newJob)]

/-- Fixture: the artifact files of both records above. -/
def sweepFS : FS := [tempDocx ("OLD"), tempPdf ("OLD"), tempDocx ("NEW"), tempPdf ("NEW")]

theorem Store.keysNodup_cons {p : String × Job} {rest : Store} :
    Store.keysNodup (p :: rest) ↔ p.1 ∉ rest.keys ∧ rest.keysNodup := by
  simp only [Store.keysNodup, Store.keys, List.map_cons, List.nodup_cons]

theorem Store.find_insert_self (s : Store) (cid : String) (j : Job) :
    (s.insert cid j).find cid = some j := by
  induction s with
  | nil => simp [Store.insert, Store.find]
  | cons p rest ih =>
    by_cases h : p.1 = cid
    · simp [Store.insert, h, Store.find]
    · simp [Store.insert, h, Store.find, ih]

theorem Store.mem_keys_insert {s : Store} {cid a : String} {j : Job}
    (h : a ∈ (s.insert cid j).keys) : a ∈ s.keys ∨ a = cid := by
  induction s with
  | nil =>
    simp [Store.insert, Store.keys] at h
    exact Or.inr h
  | cons p rest ih =>
    by_cases hp : p.1 = cid
    · simp only [Store.insert, if_pos hp, Store.keys, List.map_cons, List.mem_cons] at h
      rcases h with h | h
      · exact Or.inr h
      · exact Or.inl (by simp only [Store.keys, List.map_cons, List.mem_cons]; exact Or.inr h)
    · simp only [Store.insert, if_neg hp, Store.keys, List.map_cons, List.mem_cons] at h
      rcases h with h | h
      · exact Or.inl (by simp only [Store.keys, List.map_cons, List.mem_cons]; exact Or.inl h)
      · rcases ih h with h' | h'
        · exact Or.inl (by simp only [Store.keys, List.map_cons, List.mem_cons]; exact Or.inr h')
        · exact Or.inr h'

theorem Store.keysNodup_insert {s : Store} (hn : s.keysNodup) (cid : String) (j : Job) :
    (s.insert cid j).keysNodup := by
  induction s with
  | nil => simp [Store.insert, Store.keysNodup, Store.keys]
  | cons p rest ih =>
    rw [Store.keysNodup_cons] at hn
    by_cases hp : p.1 = cid
    · simp only [Store.insert, if_pos hp]
      rw [Store.keysNodup_cons]
      exact ⟨hp ▸ hn.1, hn.2⟩
    · simp only [Store.insert, if_neg hp]
      rw [Store.keysNodup_cons]
      refine ⟨fun hmem => ?_, ih hn.2⟩
      rcases Store.mem_keys_insert hmem with h' | h'
      · exact hn.1 h'
      · exact hp h'

theorem Store.find_update_self (s : Store) (cid : String) (f : Job → Job) :
    (s.update cid f).find cid = (s.find cid).map f := by
  induction s with
  | nil => simp [Store.update, Store.find]
  | cons p rest ih =>
    by_cases h : p.1 = cid
    · simp [Store.update, h, Store.find]
    · simp [Store.update, h, Store.find, ih]

theorem Store.find_eq_none_of_not_mem {s : Store} {cid : String}
    (h : cid ∉ s.keys) : s.find cid = none := by
  induction s with
  | nil => rfl
  | cons p rest ih =>
    simp only [Store.keys, List.map_cons, List.mem_cons, not_or] at h
    have hp : p.1 ≠ cid := fun he => h.1 he.symm
    simp only [Store.find, if_neg hp]
    exact ih h.2

theorem Store.find_mem {s : Store} {cid : String} {j : Job}
    (h : s.find cid = some j) : (cid, j) ∈ s := by
  induction s with
  | nil => simp [Store.find] at h
  | cons p rest ih =>
    by_cases hp : p.1 = cid
    · simp only [Store.find, if_pos hp, Option.some.injEq] at h
      have hpe : p = (cid, j) := by
        cases p
        simp_all
      rw [← hpe]
      exact List.mem_cons_self _ _
    · simp only [Store.find, if_neg hp] at h
      exact List.mem_cons_of_mem _ (ih h)

theorem Store.find_of_mem {s : Store} (hn : s.keysNodup) {cid : String} {j : Job}
    (h : (cid, j) ∈ s) : s.find cid = some j := by
  induction s with
  | nil => simp at h
  | cons p rest ih =>
    rw [Store.keysNodup_cons] at hn
    rcases List.mem_cons.mp h with h' | h'
    · subst h'
      simp [Store.find]
    · have hne : p.1 ≠ cid := by
        intro he
        apply hn.1
        rw [he]
        exact List.mem_map_of_mem (fun q => q.1) h'
      simp only [Store.find, if_neg hne]
      exact ih hn.2 h'

theorem Store.keys_erase_sublist (s : Store) (a : String) :
    List.Sublist ((s.erase a).keys) s.keys := by
  induction s with
  | nil => simp [Store.erase, Store.keys]
  | cons p rest ih =>
    by_cases hp : p.1 = a
    · simp only [Store.erase, if_pos hp, Store.keys, List.map_cons]
      exact List.Sublist.cons _ (List.Sublist.refl _)
    · simp only [Store.erase, if_neg hp, Store.keys, List.map_cons]
      exact List.Sublist.cons₂ _ ih

theorem Store.keysNodup_erase {s : Store} (hn : s.keysNodup) (a : String) :
    (s.erase a).keysNodup :=
  List.Nodup.sublist (Store.keys_erase_sublist s a) hn

theorem Store.find_erase {s : Store} (hn : s.keysNodup) (a b : String) :
    (s.erase a).find b = if a = b then none else s.find b := by
  induction s with
  | nil => simp [Store.erase, Store.find]
  | cons p rest ih =>
    rw [Store.keysNodup_cons] at hn
    have ihr := ih hn.2
    by_cases hpa : p.1 = a
    · simp only [Store.erase, if_pos hpa]
      by_cases hab : a = b
      · rw [if_pos hab]
        refine Store.find_eq_none_of_not_mem ?_
        rw [← hab, ← hpa]
        exact hn.1
      · rw [if_neg hab]
        have hpb : p.1 ≠ b := by rw [hpa]; exact hab
        simp [Store.find, hpb]
    · simp only [Store.erase, if_neg hpa]
      by_cases hpb : p.1 = b
      · have hab : a ≠ b := fun h => hpa (by rw [h, hpb])
        simp [Store.find, hpb, hab]
      · simp only [Store.find, if_neg hpb, ihr]

theorem Store.foldl_erase_find_none {l : List (String × Job)} {s : Store} {cid : String}
    (hn : s.keysNodup) (h : s.find cid = none) :
    (l.foldl (fun acc p => acc.erase p.1) s).find cid = none := by
  induction l generalizing s with
  | nil => simpa using h
  | cons p rest ih =>
    simp only [List.foldl_cons]
    apply ih (Store.keysNodup_erase hn p.1)
    rw [Store.find_erase hn p.1 cid]
    split
    · rfl
    · exact h

theorem Store.foldl_erase_find_of_not_mem {l : List (String × Job)} {s : Store}
    {cid : String} (hn : s.keysNodup) (h : ∀ p ∈ l, p.1 ≠ cid) :
    (l.foldl (fun acc p => acc.erase p.1) s).find cid = s.find cid := by
  induction l generalizing s with
  | nil => rfl
  | cons p rest ih =>
    simp only [List.foldl_cons]
    rw [ih (Store.keysNodup_erase hn p.1)
      (fun q hq => h q (List.mem_cons_of_mem _ hq))]
    rw [Store.find_erase hn p.1 cid]
    exact if_neg (h p (List.mem_cons_self _ _))

theorem Store.foldl_erase_find_of_mem {l : List (String × Job)} {s : Store}
    {cid : String} (hn : s.keysNodup) (h : ∃ p ∈ l, p.1 = cid) :
    (l.foldl (fun acc p => acc.erase p.1) s).find cid = none := by
  induction l generalizing s with
  | nil => simp at h
  | cons p rest ih =>
    simp only [List.foldl_cons]
    by_cases hp : p.1 = cid
    · apply Store.foldl_erase_find_none (Store.keysNodup_erase hn p.1)
      rw [Store.find_erase hn p.1 cid]
      exact if_pos hp
    · rcases h with ⟨q, hq, hq1⟩
      rcases List.mem_cons.mp hq with h' | h'
      · exact absurd (h' ▸ hq1) hp
      · exact ih (Store.keysNodup_erase hn p.1) ⟨q, h', hq1⟩

theorem Store.insert_eq_append {s : Store} {cid : String}
    (h : ∀ p ∈ s, p.1 ≠ cid) (j : Job) : s.insert cid j = s ++ [(cid, j)] := by
  induction s with
  | nil => rfl
  | cons p rest ih =>
    have hp : p.1 ≠ cid := h p (List.mem_cons_self _ _)
    simp only [Store.insert, if_neg hp, List.cons_append, List.cons.injEq, true_and]
    exact ih (fun q hq => h q (List.mem_cons_of_mem _ hq))

theorem Store.find_append_last {s : Store} {cid : String}
    (h : ∀ p ∈ s, p.1 ≠ cid) (j : Job) : (s ++ [(cid, j)]).find cid = some j := by
  induction s with
  | nil => simp [Store.find]
  | cons p rest ih =>
    have hp : p.1 ≠ cid := h p (List.mem_cons_self _ _)
    simp only [List.cons_append, Store.find, if_neg hp]
    exact ih (fun q hq => h q (List.mem_cons_of_mem _ hq))

theorem Store.update_append_last {s : Store} {cid : String}
    (h : ∀ p ∈ s, p.1 ≠ cid) (j : Job) (f : Job → Job) :
    (s ++ [(cid, j)]).update cid f = s ++ [(cid, f j)] := by
  induction s with
  | nil => simp [Store.update]
  | cons p rest ih =>
    have hp : p.1 ≠ cid := h p (List.mem_cons_self _ _)
    simp only [List.cons_append, Store.update, if_neg hp, List.cons.injEq, true_and]
    exact ih (fun q hq => h q (List.mem_cons_of_mem _ hq))

theorem uploadLoopGo_attempts_le (steps : Nat → UploadStep) :
    ∀ (fuel attempt delay : Nat) (sleeps : List Nat),
      (uploadLoopGo steps fuel attempt delay sleeps).attempts ≤ attempt + fuel := by
  intro fuel
  induction fuel with
  | zero =>
    intro attempt delay sleeps
    simp [uploadLoopGo]
  | succ fuel ih =>
    intro attempt delay sleeps
    simp only [uploadLoopGo]
    rcases h : steps attempt with _ | ⟨c, body⟩
    · by_cases hf : fuel = 0
      · simp [hf]
      · simp only [if_neg hf]
        have := ih (attempt + 1) (delay * 2) (delay :: sleeps)
        omega
    · by_cases hc : c < 500
      · simp [hc]
      · simp only [if_neg hc]
        by_cases hf : fuel = 0
        · simp [hf]
        · simp only [if_neg hf]
          have := ih (attempt + 1) delay sleeps
          omega

theorem uploadLoopGo_retry_needs_retryable (steps : Nat → UploadStep) :
    ∀ (fuel attempt delay : Nat) (sleeps : List Nat) (i c : Nat) (body : RespBody),
      attempt ≤ i →
      i + 1 < (uploadLoopGo steps fuel attempt delay sleeps).attempts →
      steps i = UploadStep.response c body → 500 ≤ c := by
  intro fuel
  induction fuel with
  | zero =>
    intro attempt delay sleeps i c body hle hlt _
    simp [uploadLoopGo] at hlt
    omega
  | succ fuel ih =>
    intro attempt delay sleeps i c body hle hlt hstep
    simp only [uploadLoopGo] at hlt
    rcases h : steps attempt with _ | ⟨c', body'⟩ <;> rw [h] at hlt
    · by_cases hf : fuel = 0
      · simp [hf] at hlt
        omega
      · simp only [if_neg hf] at hlt
        rcases Nat.lt_or_ge attempt i with hlt2 | hge
        · exact ih (attempt + 1) (delay * 2) (delay :: sleeps) i c body hlt2 hlt hstep
        · have ha : attempt = i := Nat.le_antisymm hle hge
          rw [ha] at h
          rw [h] at hstep
          cases hstep
    · by_cases hc : c' < 500
      · simp [hc] at hlt
        omega
      · simp only [if_neg hc] at hlt
        by_cases hf : fuel = 0
        · simp [hf] at hlt
          omega
        · simp only [if_neg hf] at hlt
          rcases Nat.lt_or_ge attempt i with hlt2 | hge
          · exact ih (attempt + 1) delay sleeps i c body hlt2 hlt hstep
          · have ha : attempt = i := Nat.le_antisymm hle hge
            rw [ha] at h
            have hcc : c' = c := by
              have := h.symm.trans hstep
              injection this
            omega

theorem uploadLoopGo_stop_on_success (steps : Nat → UploadStep) :
    ∀ (fuel attempt delay : Nat) (sleeps : List Nat) (i c : Nat) (body : RespBody),
      attempt ≤ i →
      steps i = UploadStep.response c body → c < 500 →
      (uploadLoopGo steps fuel attempt delay sleeps).attempts ≤ i + 1 := by
  intro fuel
  induction fuel with
  | zero =>
    intro attempt delay sleeps i c body hle _ _
    simp [uploadLoopGo]
    omega
  | succ fuel ih =>
    intro attempt delay sleeps i c body hle hstep hc
    simp only [uploadLoopGo]
    rcases h : steps attempt with _ | ⟨c', body'⟩
    · by_cases hf : fuel = 0
      · simp [hf]
        omega
      · simp only [if_neg hf]
        rcases Nat.lt_or_ge attempt i with hlt2 | hge
        · exact ih (attempt + 1) (delay * 2) (delay :: sleeps) i c body hlt2 hstep hc
        · have ha : attempt = i := Nat.le_antisymm hle hge
          rw [ha] at h
          rw [h] at hstep
          cases hstep
    · by_cases hc' : c' < 500
      · simp [hc']
        omega
      · simp only [if_neg hc']
        by_cases hf : fuel = 0
        · simp [hf]
          omega
        · simp only [if_neg hf]
          rcases Nat.lt_or_ge attempt i with hlt2 | hge
          · exact ih (attempt + 1) delay sleeps i c body hlt2 hstep hc
          · have ha : attempt = i := Nat.le_antisymm hle hge
            rw [ha] at h
            have hcc : c' = c := by
              have := h.symm.trans hstep
              injection this
            omega

theorem uploadLoopGo_sleeps_doubling (steps : Nat → UploadStep) :
    ∀ (fuel attempt : Nat) (sleeps : List Nat),
      sleeps.reverse = (List.range sleeps.length).map (fun j => 2 ^ j) →
      (uploadLoopGo steps fuel attempt (2 ^ sleeps.length) sleeps).sleeps =
        (List.range
          (uploadLoopGo steps fuel attempt (2 ^ sleeps.length) sleeps).sleeps.length).map
          (fun j => 2 ^ j) := by
  intro fuel
  induction fuel with
  | zero =>
    intro attempt sleeps hinv
    simpa [uploadLoopGo] using hinv
  | succ fuel ih =>
    intro attempt sleeps hinv
    simp only [uploadLoopGo]
    rcases h : steps attempt with _ | ⟨c, body⟩
    · by_cases hf : fuel = 0
      · simp only [if_pos hf]
        simpa using hinv
      · simp only [if_neg hf]
        have hinv' : (2 ^ sleeps.length :: sleeps).reverse =
            (List.range (2 ^ sleeps.length :: sleeps).length).map (fun j => 2 ^ j) := by
          simp only [List.reverse_cons, List.length_cons, List.range_succ, List.map_append,
            List.map_cons, List.map_nil, hinv]
        have := ih (attempt + 1) (2 ^ sleeps.length :: sleeps) hinv'
        have hdelay : 2 ^ (2 ^ sleeps.length :: sleeps).length = 2 ^ sleeps.length * 2 := by
          simp [List.length_cons, pow_succ]
        rw [hdelay] at this
        exact this
    · by_cases hc : c < 500
      · simp only [if_pos hc]
        simpa using hinv
      · simp only [if_neg hc]
        by_cases hf : fuel = 0
        · simp only [if_pos hf]
          simpa using hinv
        · simp only [if_neg hf]
          exact ih (attempt + 1) sleeps hinv

theorem uploadPdfSim_sleeps_doubling (steps : Nat → UploadStep) :
    (uploadPdfSim steps).sleeps =
      (List.range (uploadPdfSim steps).sleeps.length).map (fun j => 2 ^ j) := by
  have := uploadLoopGo_sleeps_doubling steps 4 0 [] (by simp)
  simpa [uploadPdfSim] using this

theorem FS.mem_removeFile {fs : FS} {p x : String}
    (h : x ∈ fs.removeFile p) : x ∈ fs ∧ x ≠ p := by
  unfold FS.removeFile at h
  split at h
  · rcases List.mem_filter.mp h with ⟨h1, h2⟩
    exact ⟨h1, by simpa using h2⟩
  · next hmem => exact ⟨h, fun he => hmem (he ▸ h)⟩

theorem FS.removeFile_not_mem (fs : FS) (p : String) : p ∉ fs.removeFile p :=
  fun h => (FS.mem_removeFile h).2 rfl

theorem mem_foldl_removeArtifacts {l : List (String × Job)} {fs : FS} {x : String}
    (h : x ∈ l.foldl
      (fun acc p => (FS.removeFile acc p.2.inputPath).removeFile p.2.outputPath) fs) :
    x ∈ fs := by
  induction l generalizing fs with
  | nil => simpa using h
  | cons p rest ih =>
    simp only [List.foldl_cons] at h
    exact (FS.mem_removeFile (FS.mem_removeFile (ih h)).1).1

theorem foldl_removeArtifacts_not_mem {l : List (String × Job)} {fs : FS}
    {q : String × Job} (hq : q ∈ l) :
    q.2.inputPath ∉ l.foldl
      (fun acc p => (FS.removeFile acc p.2.inputPath).removeFile p.2.outputPath) fs ∧
    q.2.outputPath ∉ l.foldl
      (fun acc p => (FS.removeFile acc p.2.inputPath).removeFile p.2.outputPath) fs := by
  induction l generalizing fs with
  | nil => simp at hq
  | cons p rest ih =>
    simp only [List.foldl_cons]
    rcases List.mem_cons.mp hq with h' | h'
    · subst h'
      constructor
      · intro hmem
        have := mem_foldl_removeArtifacts hmem
        exact (FS.mem_removeFile this).1 |> fun h2 => FS.removeFile_not_mem fs q.2.inputPath h2
      · intro hmem
        exact FS.removeFile_not_mem _ q.2.outputPath (mem_foldl_removeArtifacts hmem)
    · exact ih h'

theorem uploadPdfToTarget_no_url {store : Store} {cid : String} {j : Job}
    (hfind : store.find cid = some j) (hurl : j.targetUrl = none)
    (steps : Nat → UploadStep) :
    uploadPdfToTarget store cid steps = { ok := false, attempts := 0, sleeps := [] } := by
  simp [uploadPdfToTarget, hfind, hurl]

theorem engineLoop_no_callback (cid : String) (upSteps : Nat → UploadStep) :
    ∀ (attempts : List Attempt) (store : Store) (j : Job) (a : Attempt),
      store.find cid = some j → j.targetUrl = none →
      attempts.find? goodAttempt = some a →
      (engineLoop cid upSteps store attempts).2.2 =
          [JobStatus.uploading, JobStatus.uploadFailed] ∧
      ((engineLoop cid upSteps store attempts).1.find cid).map Job.status =
          some JobStatus.uploadFailed ∧
      (engineLoop cid upSteps store attempts).2.1 = false := by
  intro attempts
  induction attempts with
  | nil =>
    intro store j a _ _ hfa
    simp at hfa
  | cons a0 rest ih =>
    intro store j a hfind hurl hfa
    have hfind1 : (store.update cid
        (fun j => { j with currentEngine := some a0.engineName })).find cid =
        some { j with currentEngine := some a0.engineName } := by
      rw [Store.find_update_self, hfind]
      rfl
    by_cases hg : goodAttempt a0 = true
    · have hfind2 : ((store.update cid
          (fun j => { j with currentEngine := some a0.engineName })).update cid
          (fun j => { j with status := JobStatus.uploading,
                             engineUsed := some a0.engineName })).find cid =
          some { j with currentEngine := some a0.engineName,
                        status := JobStatus.uploading,
                        engineUsed := some a0.engineName } := by
        rw [Store.find_update_self, hfind1]
        rfl
      have hup := uploadPdfToTarget_no_url hfind2 (by simpa using hurl) upSteps
      simp only [engineLoop, if_pos hg, hup]
      refine ⟨by simp, ?_, by simp⟩
      simp only [show (({ ok := false, attempts := 0, sleeps := [] } : UploadSim).ok = true) =
        False by simp]
      rw [if_neg (by simp)]
      rw [Store.find_update_self, hfind2]
      rfl
    · simp only [engineLoop, if_neg hg]
      rw [List.find?_cons_of_neg _ (by simpa using hg)] at hfa
      exact ih _ _ a hfind1 (by simpa using hurl) hfa

theorem engineLoop_fallback (cid : String) (upSteps : Nat → UploadStep) :
    ∀ (attempts : List Attempt) (store : Store) (j : Job),
      store.find cid = some j →
      (∀ a, attempts.find? goodAttempt = some a →
        ∃ j', (engineLoop cid upSteps store attempts).1.find cid = some j' ∧
          j'.engineUsed = some a.engineName ∧
          (j'.status = JobStatus.completed ∨ j'.status = JobStatus.uploadFailed)) ∧
      (attempts.find? goodAttempt = none →
        ∃ j', (engineLoop cid upSteps store attempts).1.find cid = some j' ∧
          j'.status = JobStatus.failed ∧
          j'.error = some ("All conversion engines failed") ∧
          j'.engineUsed = j.engineUsed) := by
  intro attempts
  induction attempts with
  | nil =>
    intro store j hfind
    constructor
    · intro a hfa
      simp at hfa
    · intro _
      refine ⟨{ j with status := JobStatus.failed, error := some ("All conversion engines failed") }, ?_, rfl, rfl, rfl⟩
      simp only [engineLoop]
      rw [Store.find_update_self, hfind]
      rfl
  | cons a0 rest ih =>
    intro store j hfind
    have hfind1 : (store.update cid
        (fun j => { j with currentEngine := some a0.engineName })).find cid =
        some { j with currentEngine := some a0.engineName } := by
      rw [Store.find_update_self, hfind]
      rfl
    by_cases hg : goodAttempt a0 = true
    · have hfind2 : ((store.update cid
          (fun j => { j with currentEngine := some a0.engineName })).update cid
          (fun j => { j with status := JobStatus.uploading,
                             engineUsed := some a0.engineName })).find cid =
          some { j with currentEngine := some a0.engineName,
                        status := JobStatus.uploading,
                        engineUsed := some a0.engineName } := by
        rw [Store.find_update_self, hfind1]
        rfl
      constructor
      · intro a hfa
        rw [List.find?_cons_of_pos _ hg] at hfa
        have ha : a0 = a := by injection hfa
        subst ha
        simp only [engineLoop, if_pos hg]
        by_cases hok : (uploadPdfToTarget ((store.update cid
            (fun j => { j with currentEngine := some a0.engineName })).update cid
            (fun j => { j with status := JobStatus.uploading,
                               engineUsed := some a0.engineName })) cid upSteps).ok = true
        · rw [if_pos hok]
          refine ⟨{ j with currentEngine := some a0.engineName, engineUsed := some a0.engineName, status := JobStatus.completed }, ?_, rfl, Or.inl rfl⟩
          rw [Store.find_update_self, hfind2]
          rfl
        · rw [if_neg hok]
          refine ⟨{ j with currentEngine := some a0.engineName, engineUsed := some a0.engineName, status := JobStatus.uploadFailed, error := some ("Failed to upload PDF to target") }, ?_, rfl, Or.inr rfl⟩
          rw [Store.find_update_self, hfind2]
          rfl
      · intro hfa
        rw [List.find?_cons_of_pos _ hg] at hfa
        cases hfa
    · have hrest := ih (store.update cid
        (fun j => { j with currentEngine := some a0.engineName }))
        { j with currentEngine := some a0.engineName } hfind1
      constructor
      · intro a hfa
        rw [List.find?_cons_of_neg _ (by simpa using hg)] at hfa
        have h' := hrest.1 a hfa
        simpa only [engineLoop, if_neg hg] using h'
      · intro hfa
        rw [List.find?_cons_of_neg _ (by simpa using hg)] at hfa
        obtain ⟨j', h1, h2, h3, h4⟩ := hrest.2 hfa
        refine ⟨j', ?_, h2, h3, by simpa using h4⟩
        simpa only [engineLoop, if_neg hg] using h1

theorem idOf_injective {a b : Nat} (h : idOf a = idOf b) : a = b := by
  unfold idOf at h
  have hd : List.replicate a 'a' = List.replicate b 'a' := by injection h
  have hl := congrArg List.length hd
  simpa using hl

theorem procStore_keys_ne (n : Nat) : ∀ p ∈ procStore n, p.1 ≠ idOf n := by
  intro p hp
  simp only [procStore, List.mem_map] at hp
  obtain ⟨i, hi, hpe⟩ := hp
  rw [List.mem_range] at hi
  rw [← hpe]
  intro h
  exact absurd (idOf_injective h) (Nat.ne_of_lt hi)

theorem procStore_succ (n : Nat) :
    procStore (n + 1) = procStore n ++ [(idOf n, procJobAt n)] := by
  simp [procStore, List.range_succ]

theorem reachable_procStore : ∀ n, Reachable (procStore n) := by
  intro n
  induction n with
  | zero => exact Reachable.init
  | succ n ih =>
    have hsub : Step (procStore n) ((procStore n).insert (idOf n) (queuedJobAt n)) :=
      Step.submit (procStore n) (idOf n) ("doc.docx") (some (idOf n)) (some ("http://cb"))
        ("convert") none 0 (by decide) rfl
    have h1 : Reachable ((procStore n).insert (idOf n) (queuedJobAt n)) :=
      Reachable.step ih hsub
    rw [Store.insert_eq_append (procStore_keys_ne n) (queuedJobAt n)] at h1
    have hfind : (procStore n ++ [(idOf n, queuedJobAt n)]).find (idOf n) =
        some (queuedJobAt n) :=
      Store.find_append_last (procStore_keys_ne n) (queuedJobAt n)
    have hstep2 : Step (procStore n ++ [(idOf n, queuedJobAt n)])
        ((procStore n ++ [(idOf n, queuedJobAt n)]).update (idOf n)
          (fun j => { j with status := JobStatus.processing })) :=
      Step.beginProcessing _ (idOf n) (queuedJobAt n) hfind rfl
    have h2 := Reachable.step h1 hstep2
    rw [Store.update_append_last (procStore_keys_ne n) (queuedJobAt n)] at h2
    rw [procStore_succ]
    exact h2

theorem countProcessing_procStore (n : Nat) : countProcessing (procStore n) = n := by
  induction n with
  | zero => rfl
  | succ n ih =>
    rw [procStore_succ]
    unfold countProcessing at ih ⊢
    rw [List.filter_append, List.length_append, ih]
    simp [procJobAt]

/-- Claim C1 (amended): for every job whose conversion succeeds, the job
enters `uploading` even when the submission supplied no callback URL; the
upload step then fails immediately (`upload_pdf_to_target` returns `False`
on a missing `target_url`, app.py lines 413-415) and the job ends in
`upload_failed`, not `completed`. -/
theorem no_callback_enters_uploading :
    ∀ (store : Store) (cid : String) (j : Job) (attempts : List Attempt)
      (upSteps : Nat → UploadStep) (a : Attempt),
      store.find cid = some j →
      j.targetUrl = none →
      attempts.find? goodAttempt = some a →
      (convertFile store cid attempts upSteps).2.2 =
        [JobStatus.processing, JobStatus.uploading, JobStatus.uploadFailed] ∧
      ((convertFile store cid attempts upSteps).1.find cid).map Job.status =
        some JobStatus.uploadFailed ∧
      (convertFile store cid attempts upSteps).2.1 = false := by
  intro store cid j attempts upSteps a hfind hurl hfa
  have hne : attempts ≠ [] := by
    intro he
    rw [he] at hfa
    simp at hfa
  have hfind0 : (store.update cid
      (fun j => { j with status := JobStatus.processing })).find cid =
      some { j with status := JobStatus.processing } := by
    rw [Store.find_update_self, hfind]
    rfl
  have hel := engineLoop_no_callback cid upSteps attempts _ _ a hfind0 (by simpa using hurl) hfa
  have hie : attempts.isEmpty = false := by
    cases attempts
    · exact absurd rfl hne
    · rfl
  simp only [convertFile, hie, Bool.false_eq_true, if_false]
  exact ⟨by rw [hel.1], hel.2.1, hel.2.2⟩

/-- Claim C1 counterexample: a concrete job submitted with no callback URL
whose single engine attempt succeeds enters `uploading` and ends in
`upload_failed`, refuting "transitions directly to `completed` with no
delivery step". -/
theorem no_callback_upload_failed_cex :
    (convertFile [(("J1" : String), jobNoCb)] ("J1") [goodA]
        (fun _ => UploadStep.transportError)).2.2 =
      [JobStatus.processing, JobStatus.uploading, JobStatus.uploadFailed] ∧
    ((convertFile [(("J1" : String), jobNoCb)] ("J1") [goodA]
        (fun _ => UploadStep.transportError)).1.find ("J1")).map Job.status =
      some JobStatus.uploadFailed := by
  decide

/-- Claim C1 witness: the amended theorem applied at the concrete job above. -/
theorem no_callback_enters_uploading_witness :
    (convertFile [(("J1" : String), jobNoCb)] ("J1") [goodA]
        (fun _ => UploadStep.transportError)).2.2 =
      [JobStatus.processing, JobStatus.uploading, JobStatus.uploadFailed] ∧
    ((convertFile [(("J1" : String), jobNoCb)] ("J1") [goodA]
        (fun _ => UploadStep.transportError)).1.find ("J1")).map Job.status =
      some JobStatus.uploadFailed ∧
    (convertFile [(("J1" : String), jobNoCb)] ("J1") [goodA]
        (fun _ => UploadStep.transportError)).2.1 = false :=
  no_callback_enters_uploading [(("J1" : String), jobNoCb)] ("J1") jobNoCb [goodA]
    (fun _ => UploadStep.transportError) goodA (by decide) (by decide) (by decide)

/-- Claim C2 (amended): the number of jobs simultaneously in `processing`
is not bounded by `MAX_WORKERS`: every submission's `convert_file` runs as
an independent event-loop task that marks its job `processing` without
acquiring any worker slot (the thread pool of app.py line 104 is entered
only inside `MSWordEngine.convert`), so for every `n` some reachable store
holds `n` jobs processing at once. -/
theorem processing_unbounded :
    ∀ n : Nat, ∃ s : Store, Reachable s ∧ countProcessing s = n :=
  fun n => ⟨procStore n, reachable_procStore n, countProcessing_procStore n⟩

/-- Claim C2 counterexample: a reachable store with five jobs in
`processing` while `MAX_WORKERS` is 4, refuting the claimed bound. -/
theorem processing_bound_cex :
    ∃ s : Store, Reachable s ∧ MAX_WORKERS < countProcessing s :=
  ⟨procStore 5, reachable_procStore 5, by decide⟩

/-- Claim C3 (amended): a submission whose id already exists in the store
does not fail with any duplicate-id error: it succeeds and overwrites the
existing record (`conversion_status[conversion_id] = {...}`, app.py line
599); the store does keep at most one record per id. -/
theorem submit_overwrites_existing :
    ∀ (store : Store) (fs : FS) (filename : String) (size : Option Nat)
      (nu tu : String) (now : Nat) (jOld : Job),
      store.find nu = some jOld →
      validDocxFilename filename = true →
      sizeTooLarge size = false →
      (convertDocx store fs filename size nu tu now).2.2 = Except.ok nu ∧
      (convertDocx store fs filename size nu tu now).1.find nu =
        some (initialJob nu filename (some nu) (some tu) ("convert") now) ∧
      (Store.keysNodup store →
        Store.keysNodup (convertDocx store fs filename size nu tu now).1) := by
  intro store fs filename size nu tu now jOld hfind hext hsize
  simp only [convertDocx, hext, Bool.not_true, Bool.false_eq_true, if_false, hsize]
  refine ⟨by trivial, Store.find_insert_self store nu _,
    fun hn => Store.keysNodup_insert hn nu _⟩

/-- Claim C3 counterexample: submitting id `J1` twice succeeds both times
and the second submission replaces the first record (its filename changes
from `a.docx` to `b.docx`), refuting "creation fails with a DuplicateID
error and the existing record is left unchanged". -/
theorem duplicate_id_overwrite_cex :
    ((convertDocx ((convertDocx [] [] ("a.docx") none ("J1") ("http://cb") 0).1) []
        ("b.docx") none ("J1") ("http://cb") 5).2.2 = Except.ok ("J1")) ∧
    (((convertDocx [] [] ("a.docx") none ("J1") ("http://cb") 0).1.find ("J1")).map
        Job.filename = some ("a.docx")) ∧
    (((convertDocx ((convertDocx [] [] ("a.docx") none ("J1") ("http://cb") 0).1) []
        ("b.docx") none ("J1") ("http://cb") 5).1.find ("J1")).map Job.filename =
        some ("b.docx")) :=
  ⟨rfl, rfl, rfl⟩

/-- Claim C3 witness: the amended theorem applied to a store already
holding id `J1`. -/
theorem submit_overwrites_existing_witness :
    (convertDocx [(("J1" : String), jobNoCb)] [] ("b.docx") none ("J1") ("http://cb") 5).2.2 =
      Except.ok ("J1") ∧
    (convertDocx [(("J1" : String), jobNoCb)] [] ("b.docx") none ("J1") ("http://cb") 5).1.find ("J1") =
      some (initialJob ("J1") ("b.docx") (some ("J1")) (some ("http://cb")) ("convert") 5) ∧
    (Store.keysNodup [(("J1" : String), jobNoCb)] →
      Store.keysNodup (convertDocx [(("J1" : String), jobNoCb)] [] ("b.docx") none ("J1") ("http://cb") 5).1) :=
  submit_overwrites_existing [(("J1" : String), jobNoCb)] [] ("b.docx") none ("J1")
    ("http://cb") 5 jobNoCb (by decide) (by decide) (by decide)

/-- Claim C4 (confirmed): `convert_file` iterates the available engines in
their fixed priority order; an attempt counts as a success only when the
engine reports success and the output artifact exists and is non-empty
(`app.py` line 510); the first such attempt is taken, recording
`engine_used`; with no available engines the job fails with
"No conversion engines available", and when every attempt fails it fails
with "All conversion engines failed". -/
theorem engine_fallback_order :
    ∀ (store : Store) (cid : String) (j : Job) (attempts : List Attempt)
      (upSteps : Nat → UploadStep),
      store.find cid = some j →
      ((attempts = [] →
        ((convertFile store cid attempts upSteps).1.find cid).map Job.status =
            some JobStatus.failed ∧
        ((convertFile store cid attempts upSteps).1.find cid).map Job.error =
            some (some ("No conversion engines available"))) ∧
       (∀ a, attempts.find? goodAttempt = some a →
        (a.reported = true ∧ a.outputExists = true ∧ 0 < a.outputSize) ∧
        ∃ j', (convertFile store cid attempts upSteps).1.find cid = some j' ∧
          j'.engineUsed = some a.engineName ∧
          (j'.status = JobStatus.completed ∨ j'.status = JobStatus.uploadFailed)) ∧
       (attempts ≠ [] → attempts.find? goodAttempt = none →
        ∃ j', (convertFile store cid attempts upSteps).1.find cid = some j' ∧
          j'.status = JobStatus.failed ∧
          j'.error = some ("All conversion engines failed") ∧
          j'.engineUsed = j.engineUsed)) := by
  intro store cid j attempts upSteps hfind
  have hfind0 : (store.update cid
      (fun j => { j with status := JobStatus.processing })).find cid =
      some { j with status := JobStatus.processing } := by
    rw [Store.find_update_self, hfind]
    rfl
  refine ⟨?_, ?_, ?_⟩
  · intro he
    subst he
    simp only [convertFile, List.isEmpty_nil, if_true]
    constructor
    · rw [Store.find_update_self, Store.find_update_self, hfind]
      rfl
    · rw [Store.find_update_self, Store.find_update_self, hfind]
      rfl
  · intro a hfa
    have hgood : goodAttempt a = true := List.find?_some hfa
    have hne : attempts ≠ [] := by
      intro he
      rw [he] at hfa
      simp at hfa
    have hie : attempts.isEmpty = false := by
      cases attempts
      · exact absurd rfl hne
      · rfl
    refine ⟨?_, ?_⟩
    · unfold goodAttempt at hgood
      simp only [Bool.and_eq_true, decide_eq_true_eq] at hgood
      exact ⟨hgood.1.1, hgood.1.2, hgood.2⟩
    · have hfb := (engineLoop_fallback cid upSteps attempts _ _ hfind0).1 a hfa
      simp only [convertFile, hie, Bool.false_eq_true, if_false]
      exact hfb
  · intro hne hfa
    have hie : attempts.isEmpty = false := by
      cases attempts
      · exact absurd rfl hne
      · rfl
    obtain ⟨j', h1, h2, h3, h4⟩ := (engineLoop_fallback cid upSteps attempts _ _ hfind0).2 hfa
    simp only [convertFile, hie, Bool.false_eq_true, if_false]
    exact ⟨j', h1, h2, h3, by simpa using h4⟩

/-- Claim C4 witness: with engines `[A(fail), B(success)]` the theorem
yields `engine_used = B`, applied at a concrete store. -/
theorem engine_fallback_order_witness :
    (goodB.reported = true ∧ goodB.outputExists = true ∧ 0 < goodB.outputSize) ∧
    ∃ j', (convertFile [(("J1" : String), jobNoCb)] ("J1") [badA, goodB]
        (fun _ => UploadStep.transportError)).1.find ("J1") = some j' ∧
      j'.engineUsed = some goodB.engineName ∧
      (j'.status = JobStatus.completed ∨ j'.status = JobStatus.uploadFailed) :=
  (engine_fallback_order [(("J1" : String), jobNoCb)] ("J1") jobNoCb [badA, goodB]
    (fun _ => UploadStep.transportError) (by decide)).2.1 goodB (by decide)

/-- Claim C5 (amended): the upload retry loop makes at most 4 attempts; a
further attempt follows a POST only after a transport error or a response
with status ≥ 500; any response with status < 500 ends the loop at once;
the back-off sleeps that do occur start at the base delay 1 and double each
time — but they are performed only before transport-error retries: a retry
after a ≥ 500 response happens immediately with no sleep (app.py lines
432-460: only the `except` branch sleeps).  The final conjunct exercises
the all-transport-errors path: exactly 4 attempts with sleeps 1, 2, 4. -/
theorem upload_retry_policy :
    (∀ steps : Nat → UploadStep, (uploadPdfSim steps).attempts ≤ 4) ∧
    (∀ (steps : Nat → UploadStep) (i c : Nat) (body : RespBody),
      i + 1 < (uploadPdfSim steps).attempts →
      steps i = UploadStep.response c body → 500 ≤ c) ∧
    (∀ (steps : Nat → UploadStep) (i c : Nat) (body : RespBody),
      steps i = UploadStep.response c body → c < 500 →
      (uploadPdfSim steps).attempts ≤ i + 1) ∧
    (∀ steps : Nat → UploadStep,
      (uploadPdfSim steps).sleeps =
        (List.range (uploadPdfSim steps).sleeps.length).map (fun j => 2 ^ j)) ∧
    uploadPdfSim (fun _ => UploadStep.transportError) =
      { ok := false, attempts := 4, sleeps := [1, 2, 4] } := by
  refine ⟨?_, ?_, ?_, ?_, by decide⟩
  · intro steps
    simpa using uploadLoopGo_attempts_le steps 4 0 1 []
  · intro steps i c body hlt hstep
    exact uploadLoopGo_retry_needs_retryable steps 4 0 1 [] i c body (Nat.zero_le i) hlt hstep
  · intro steps i c body hstep hc
    exact uploadLoopGo_stop_on_success steps 4 0 1 [] i c body (Nat.zero_le i) hstep hc
  · exact uploadPdfSim_sleeps_doubling

/-- Claim C5 counterexample: a 500 response followed by a 200 causes a
retry (2 attempts) with no back-off sleep before it, refuting "the delays
between retries start at the base delay and double on each retry". -/
theorem backoff_5xx_no_delay_cex :
    (uploadPdfSim steps5xx).attempts = 2 ∧
    (uploadPdfSim steps5xx).sleeps = [] ∧
    (uploadPdfSim steps5xx).sleeps ≠
      (List.range ((uploadPdfSim steps5xx).attempts - 1)).map (fun j => 2 ^ j) := by
  decide

/-- Claim C5 witness: a 404 response on the first attempt stops the loop at
one attempt, through the third conjunct of the theorem. -/
theorem upload_retry_policy_witness :
    (uploadPdfSim (fun _ => UploadStep.response 404 RespBody.unparseable)).attempts ≤ 0 + 1 :=
  upload_retry_policy.2.2.1 (fun _ => UploadStep.response 404 RespBody.unparseable) 0 404
    RespBody.unparseable rfl (by decide)

/-- Claim C6 (confirmed): one reaper sweep removes exactly the records
whose age `now - created_at` strictly exceeds `MAX_FILE_AGE` — with no
regard to their status — deleting their input and output artifacts, and
keeps every record aged ≤ `MAX_FILE_AGE` unchanged. -/
theorem reaper_sweep_expiry :
    ∀ (now : Nat) (store : Store) (fs : FS) (cid : String) (j : Job),
      Store.keysNodup store →
      store.find cid = some j →
      ((MAX_FILE_AGE < now - j.createdTime →
        (cleanupSweep now store fs).1.find cid = none ∧
        j.inputPath ∉ (cleanupSweep now store fs).2 ∧
        j.outputPath ∉ (cleanupSweep now store fs).2) ∧
       (now - j.createdTime ≤ MAX_FILE_AGE →
        (cleanupSweep now store fs).1.find cid = some j)) := by
  intro now store fs cid j hn hfind
  constructor
  · intro hexp
    have hmem : (cid, j) ∈ store.filter
        (fun p => decide (MAX_FILE_AGE < now - p.2.createdTime)) := by
      rw [List.mem_filter]
      exact ⟨Store.find_mem hfind, by simpa using hexp⟩
    refine ⟨?_, ?_, ?_⟩
    · simp only [cleanupSweep]
      exact Store.foldl_erase_find_of_mem hn ⟨(cid, j), hmem, rfl⟩
    · simp only [cleanupSweep]
      exact (foldl_removeArtifacts_not_mem hmem).1
    · simp only [cleanupSweep]
      exact (foldl_removeArtifacts_not_mem hmem).2
  · intro hyoung
    have hall : ∀ p ∈ store.filter
        (fun p => decide (MAX_FILE_AGE < now - p.2.createdTime)), p.1 ≠ cid := by
      intro p hp hpcid
      rw [List.mem_filter] at hp
      have hps : (cid, p.2) ∈ store := by
        have hpe : p = (cid, p.2) := by
          cases p
          simp_all
        rw [← hpe]
        exact hp.1
      have hfp := Store.find_of_mem hn hps
      rw [hfind] at hfp
      have hpj : j = p.2 := by injection hfp
      have hage := hp.2
      rw [decide_eq_true_eq] at hage
      rw [← hpj] at hage
      omega
    simp only [cleanupSweep]
    rw [Store.foldl_erase_find_of_not_mem hn hall]
    exact hfind

/-- Claim C6 witness: at time 5000 with max age 3600, the record created at
time 0 is reaped (record and both artifacts gone) while the record created
at time 4000 survives untouched. -/
theorem reaper_sweep_expiry_witness :
    ((cleanupSweep 5000 sweepStore sweepFS).1.find ("OLD") = none ∧
     oldJob.inputPath ∉ (cleanupSweep 5000 sweepStore sweepFS).2 ∧
     oldJob.outputPath ∉ (cleanupSweep 5000 sweepStore sweepFS).2) ∧
    (cleanupSweep 5000 sweepStore sweepFS).1.find ("NEW") = some newJob :=
  ⟨(reaper_sweep_expiry 5000 sweepStore sweepFS ("OLD") oldJob
      (by unfold Store.keysNodup; decide) (by decide)).1 (by decide),
   (reaper_sweep_expiry 5000 sweepStore sweepFS ("NEW") newJob
      (by unfold Store.keysNodup; decide) (by decide)).2 (by decide)⟩

/-- Claim C7 (confirmed): a submission that fails the `.docx` extension
check (case-insensitive, as the code lowercases first) or whose declared
size exceeds `MAX_FILE_SIZE` is rejected with HTTP 400 by both endpoints
before any record is created or file written: the store and the filesystem
come back unchanged, so the rejected submission never enters the state
machine. -/
theorem submit_validation_rejects :
    ∀ (store : Store) (fs : FS) (filename : String) (size : Option Nat)
      (nu tu freshId : String) (nuD tuD : Option String) (now : Nat),
      (validDocxFilename filename = false ∨
        ∃ s, size = some s ∧ MAX_FILE_SIZE < s) →
      convertDocx store fs filename size nu tu now = (store, fs, Except.error 400) ∧
      convertDua store fs filename size nuD tuD freshId now =
        (store, fs, Except.error 400) := by
  intro store fs filename size nu tu freshId nuD tuD now h
  rcases h with hext | ⟨s, hs, hlt⟩
  · constructor <;> simp [convertDocx, convertDua, hext]
  · have hsz : sizeTooLarge size = true := by
      rw [hs]
      simp only [sizeTooLarge, Bool.and_eq_true, decide_eq_true_eq]
      exact ⟨Nat.lt_of_le_of_lt (Nat.zero_le _) hlt, hlt⟩
    constructor <;>
      cases hb : validDocxFilename filename <;>
        simp [convertDocx, convertDua, hb, hsz]

/-- Claim C7 witness: a `.pdf` upload is rejected by both endpoints with
the store and filesystem unchanged. -/
theorem submit_validation_rejects_witness :
    convertDocx [] [] ("x.pdf") none ("J1") ("http://cb") 0 =
      ([], [], Except.error 400) ∧
    convertDua [] [] ("x.pdf") none none none ("uuid-1") 0 =
      ([], [], Except.error 400) :=
  submit_validation_rejects [] [] ("x.pdf") none ("J1") ("http://cb") ("uuid-1")
    none none 0 (Or.inl (by decide))

/-- Claim C8 (confirmed): for an existing id, `/cleanup` succeeds — the
record is removed and both artifact files are deleted; calling it again
returns 404 rather than crashing, and status and artifact queries for the
id likewise fail with 404 afterwards. -/
theorem cleanup_idempotent_notfound :
    ∀ (store : Store) (fs : FS) (cid : String) (j : Job),
      Store.keysNodup store →
      store.find cid = some j →
      cleanupConversion store fs cid =
        Except.ok (store.erase cid,
          (fs.removeFile j.inputPath).removeFile j.outputPath) ∧
      (store.erase cid).find cid = none ∧
      j.inputPath ∉ (fs.removeFile j.inputPath).removeFile j.outputPath ∧
      j.outputPath ∉ (fs.removeFile j.inputPath).removeFile j.outputPath ∧
      cleanupConversion (store.erase cid)
        ((fs.removeFile j.inputPath).removeFile j.outputPath) cid =
        Except.error 404 ∧
      getStatus (store.erase cid) cid = Except.error 404 ∧
      downloadPdf (store.erase cid)
        ((fs.removeFile j.inputPath).removeFile j.outputPath) cid =
        Except.error 404 := by
  intro store fs cid j hn hfind
  have herase : (store.erase cid).find cid = none := by
    rw [Store.find_erase hn cid cid]
    exact if_pos rfl
  refine ⟨?_, herase, ?_, ?_, ?_, ?_, ?_⟩
  · simp [cleanupConversion, hfind]
  · intro hmem
    exact FS.removeFile_not_mem fs j.inputPath (FS.mem_removeFile hmem).1
  · exact FS.removeFile_not_mem _ j.outputPath
  · simp [cleanupConversion, herase]
  · simp [getStatus, herase]
  · simp [downloadPdf, herase]

/-- Claim C8 witness: the theorem applied at a one-record store holding an
`upload_failed` job with both artifacts on disk. -/
theorem cleanup_idempotent_notfound_witness :
    cleanupConversion [(("J1" : String), jobUF)] [tempDocx ("J1"), tempPdf ("J1")] ("J1") =
      Except.ok (Store.erase [(("J1" : String), jobUF)] ("J1"),
        FS.removeFile
          (FS.removeFile [tempDocx ("J1"), tempPdf ("J1")] jobUF.inputPath)
          jobUF.outputPath) ∧
    (Store.erase [(("J1" : String), jobUF)] ("J1")).find ("J1") = none ∧
    jobUF.inputPath ∉ FS.removeFile
      (FS.removeFile [tempDocx ("J1"), tempPdf ("J1")] jobUF.inputPath) jobUF.outputPath ∧
    jobUF.outputPath ∉ FS.removeFile
      (FS.removeFile [tempDocx ("J1"), tempPdf ("J1")] jobUF.inputPath) jobUF.outputPath ∧
    cleanupConversion (Store.erase [(("J1" : String), jobUF)] ("J1"))
      (FS.removeFile (FS.removeFile [tempDocx ("J1"), tempPdf ("J1")] jobUF.inputPath)
        jobUF.outputPath) ("J1") = Except.error 404 ∧
    getStatus (Store.erase [(("J1" : String), jobUF)] ("J1")) ("J1") = Except.error 404 ∧
    downloadPdf (Store.erase [(("J1" : String), jobUF)] ("J1"))
      (FS.removeFile (FS.removeFile [tempDocx ("J1"), tempPdf ("J1")] jobUF.inputPath)
        jobUF.outputPath) ("J1") = Except.error 404 :=
  cleanup_idempotent_notfound [(("J1" : String), jobUF)]
    [tempDocx ("J1"), tempPdf ("J1")] ("J1") jobUF
    (by unfold Store.keysNodup; decide) (by decide)

/-- Claim C9 (amended): `queue_status` computes `completed`, `processing`
and `failed` as exact per-status counts, reads the store and mutates
nothing; but the reported `queued` is derived as
`total - completed - processing - failed`, which equals the number of
`queued` records plus the `uploading` and `upload_failed` ones, not the
exact `queued` count. -/
theorem queue_status_counts :
    ∀ s : Store,
      (queueStatus s).completed = countStatus JobStatus.completed s ∧
      (queueStatus s).processing = countStatus JobStatus.processing s ∧
      (queueStatus s).failed = countStatus JobStatus.failed s ∧
      (queueStatus s).queued =
        countStatus JobStatus.queued s + countStatus JobStatus.uploading s +
          countStatus JobStatus.uploadFailed s := by
  intro s
  refine ⟨rfl, rfl, rfl, ?_⟩
  have htot : s.length =
      countStatus JobStatus.queued s + countStatus JobStatus.processing s +
      countStatus JobStatus.uploading s + countStatus JobStatus.completed s +
      countStatus JobStatus.failed s + countStatus JobStatus.uploadFailed s := by
    induction s with
    | nil => rfl
    | cons p rest ih =>
      simp only [List.length_cons, countStatus, List.filter_cons] at ih ⊢
      cases hst : p.2.status <;> simp [hst] <;> omega
  simp only [queueStatus]
  omega

/-- Claim C9 counterexample: a store holding one `upload_failed` record is
reported as `queued = 1` although no record has status `queued`, refuting
"the reported queued count equals the number of records whose status is
exactly queued". -/
theorem queue_status_queued_count_cex :
    (queueStatus [(("J1" : String), jobUF)]).queued = 1 ∧
    countStatus JobStatus.queued [(("J1" : String), jobUF)] = 0 := by
  decide

/-- Claim C10 (confirmed): GET `/pdf/{id}` serves `TEMP_DIR/{id}.pdf` for
an unknown id whenever that file exists and 404 exactly when it does not;
for a known id it serves the record's output artifact whenever that file
exists — for any job status, with no completed-status check. -/
theorem pdf_direct_behavior :
    ∀ (store : Store) (fs : FS) (cid : String),
      (store.find cid = none →
        (tempPdf cid ∈ fs → getPdfDirect store fs cid = Except.ok (tempPdf cid)) ∧
        (tempPdf cid ∉ fs → getPdfDirect store fs cid = Except.error 404)) ∧
      (∀ j, store.find cid = some j →
        (j.outputPath ∈ fs → getPdfDirect store fs cid = Except.ok j.outputPath) ∧
        (j.outputPath ∉ fs → getPdfDirect store fs cid = Except.error 404)) := by
  intro store fs cid
  constructor
  · intro hnone
    constructor
    · intro hmem
      simp [getPdfDirect, hnone, hmem]
    · intro hmem
      simp [getPdfDirect, hnone, hmem]
  · intro j hsome
    constructor
    · intro hmem
      simp [getPdfDirect, hsome, hmem]
    · intro hmem
      simp [getPdfDirect, hsome, hmem]

/-- Claim C10 witness: an unknown id is served from the temp naming scheme,
and a known id whose job is in `upload_failed` is still served its output
artifact. -/
theorem pdf_direct_behavior_witness :
    (getPdfDirect [] [tempPdf ("X")] ("X") = Except.ok (tempPdf ("X"))) ∧
    (getPdfDirect [(("J1" : String), jobUF)] [jobUF.outputPath] ("J1") =
      Except.ok jobUF.outputPath) :=
  ⟨((pdf_direct_behavior [] [tempPdf ("X")] ("X")).1 (by decide)).1 (by decide),
   ((pdf_direct_behavior [(("J1" : String), jobUF)] [jobUF.outputPath] ("J1")).2 jobUF
      (by decide)).1 (by decide)⟩

end PdfConverter
